import Mathlib

/-!
Verification model of the invoice-processor pipeline
(src/app/data_processor.py, src/app/document_processor.py,
src/app/main.py, src/app/export_manager.py).

Strings are modelled over their character lists; floating-point values are
modelled as exact rationals (every value produced by the pipeline's numeric
parser is a finite decimal, so `ℚ` represents it exactly); pandas column
operations, which act elementwise, are modelled as maps over row lists; the
wall clock (`datetime.now()`) is an explicit input.
-/

/-- Fold a list of ASCII digit characters into a natural number,
most significant digit first, starting from `acc`. -/
def foldDigits (acc : ℕ) (cs : List Char) : ℕ :=
  cs.foldl (fun a c => 10 * a + (c.toNat - 48)) acc

/-- Numeric value of an all-digit string. -/
def parseNatStr (s : String) : ℕ := foldDigits 0 s.data

/-- Fractional phase of Python `float` parsing, after the decimal point:
`seen` records whether any digit has appeared so far, `ip` is the parsed
integer part, `fa`/`fl` accumulate the fraction's digits and their count. -/
def pyFracLoop (seen : Bool) (ip : ℕ) (fa : ℕ) (fl : ℕ) : List Char → Option ℚ
  | [] => if seen then some ((ip : ℚ) + (fa : ℚ) / 10 ^ fl) else none
  | c :: cs =>
    if c.isDigit then pyFracLoop true ip (10 * fa + (c.toNat - 48)) (fl + 1) cs
    else none

/-- Integer phase of Python `float` parsing. -/
def pyIntLoop (seen : Bool) (acc : ℕ) : List Char → Option ℚ
  | [] => if seen then some (acc : ℚ) else none
  | c :: cs =>
    if c.isDigit then pyIntLoop true (10 * acc + (c.toNat - 48)) cs
    else if c = '.' then pyFracLoop seen acc 0 0 cs
    else none

/-- Python `float(s)`, modelled for strings over the alphabet that survives
`_extract_numeric`'s stripping step (ASCII digits and `.`): succeeds exactly
when the string has at least one digit and at most one dot, `none` models a
raised `ValueError`. -/
def pyFloat? (s : String) : Option ℚ := pyIntLoop false 0 s.data

/-- DataProcessor._extract_numeric: return 0.0 on NA/empty input, strip every
character that is not an ASCII digit, `.` or `,` (the regex
`re.sub(r'[^\d.,]', '', str(value))`), drop the commas, then `float(...)`
with `ValueError` caught and mapped to 0.0.  The model's inputs are strings,
so the `pd.isna` branch never fires; the function is total, it never raises. -/
def extract_numeric (value : String) : ℚ :=
  if value = "" then 0
  else
    let numeric_str := String.mk (value.data.filter (fun c => c.isDigit || c == '.' || c == ','))
    let no_commas := String.mk (numeric_str.data.filter (fun c => c != ','))
    match pyFloat? no_commas with
    | some q => q
    | none => 0

/-- Numeric coercion exactly as worded in the spec (section 4.2): strip every
character that is not a digit, `.` or `,`; remove `,`; parse the remainder as
a floating-point value; on empty input or parse failure default to 0.0.
Kept as a separate definition so it can be compared with the code model
`extract_numeric`. -/
def normalizeNumericSpec (s : String) : ℚ :=
  let kept := s.data.filter (fun c => c.isDigit || c == '.' || c == ',')
  let noComma := kept.filter (fun c => c != ',')
  match pyFloat? (String.mk noComma) with
  | some q => q
  | none => 0

/-- Python str.title on a character list, ASCII model: an alphabetic
character is uppercased when the previous character is not alphabetic and
lowercased otherwise; every other character passes through and resets the
word boundary. -/
def titleChars : Bool → List Char → List Char
  | _, [] => []
  | prevAlpha, c :: cs =>
    (if c.isAlpha then (if prevAlpha then c.toLower else c.toUpper) else c)
      :: titleChars c.isAlpha cs

/-- Python str.title (ASCII model). -/
def str_title (s : String) : String := String.mk (titleChars false s.data)

/-- Drop leading and trailing whitespace from a character list
(Python str.strip with no argument, ASCII model). -/
def trimChars (cs : List Char) : List Char :=
  ((cs.dropWhile Char.isWhitespace).reverse.dropWhile Char.isWhitespace).reverse

/-- Python str.strip (ASCII model). -/
def str_strip (s : String) : String := String.mk (trimChars s.data)

/-- Python str.upper (ASCII model). -/
def str_upper (s : String) : String := String.mk (s.data.map Char.toUpper)

/-- Python str.lower (ASCII model). -/
def str_lower (s : String) : String := String.mk (s.data.map Char.toLower)

/-- Split a character list at every occurrence of `sep` (Python str.split
with a one-character separator): the result always has one more part than
there are separators, so the empty input yields one empty part. -/
def splitOnChar (sep : Char) : List Char → List (List Char)
  | [] => [[]]
  | c :: rest =>
    let r := splitOnChar sep rest
    if c = sep then [] :: r
    else (c :: r.headI) :: r.tail

/-- The text-column cleaning step of DataProcessor._clean_data:
`.str.strip().str.title()`. -/
def clean_text (s : String) : String := str_title (str_strip s)

/-- Calendar date, the model of a pandas Timestamp's date. -/
structure Date where
  year : ℕ
  month : ℕ
  day : ℕ
deriving DecidableEq, Repr

/-- Gregorian leap-year rule. -/
def isLeap (y : ℕ) : Bool := (y % 4 == 0 && y % 100 != 0) || (y % 400 == 0)

/-- Number of days of a month in the Gregorian calendar. -/
def daysInMonth (y m : ℕ) : ℕ :=
  if m = 2 then (if isLeap y then 29 else 28)
  else if m = 4 ∨ m = 6 ∨ m = 9 ∨ m = 11 then 30
  else 31

/-- A date is valid when its month and day lie in calendar range. -/
def Date.valid (d : Date) : Prop :=
  1 ≤ d.month ∧ d.month ≤ 12 ∧ 1 ≤ d.day ∧ d.day ≤ daysInMonth d.year d.month

/-- Numeric encoding of a date used to compare dates; on calendar-valid
dates it orders them chronologically. -/
def Date.enc (d : Date) : ℕ := d.year * 10000 + d.month * 100 + d.day

/-- True on nonempty all-ASCII-digit character lists. -/
def allDigits (cs : List Char) : Bool := !cs.isEmpty && cs.all Char.isDigit

/-- Date parsing on the dash-separated parts of the input string: exactly a
four-digit year part, one-or-two-digit month and day parts, in calendar
range; anything else is a parse failure. -/
def parseDateParts : List (List Char) → Option Date
  | [ys, ms, ds] =>
    if ys.length = 4 ∧ allDigits ys ∧ allDigits ms ∧ ms.length ≤ 2 ∧ allDigits ds ∧ ds.length ≤ 2 then
      let y := foldDigits 0 ys
      let m := foldDigits 0 ms
      let d := foldDigits 0 ds
      if 1 ≤ m ∧ m ≤ 12 ∧ 1 ≤ d ∧ d ≤ daysInMonth y m then some ⟨y, m, d⟩ else none
    else none
  | _ => none

/-- Models `pd.to_datetime(raw, errors='coerce')` as used in
DataProcessor._clean_data, restricted to ISO year-month-day input strings:
a parse failure yields `none` (pandas NaT), never an exception and never the
current time.  Pandas accepts further date layouts that are outside this
model; on every string that is not a calendar-valid ISO date the model
returns `none` exactly as `errors='coerce'` does. -/
def parse_date (s : String) : Option Date :=
  parseDateParts (splitOnChar '-' (trimChars s.data))

/-- One raw line item of DocumentProcessor._parse_line_item: the four fields
are raw strings, missing properties default to the empty string. -/
structure LineItem where
  description : String := ""
  quantity : String := ""
  unit_price : String := ""
  total_price : String := ""
deriving DecidableEq, Repr

/-- A nested property of a document-AI entity. -/
structure EntityProp where
  type_ : String
  mention_text : String
deriving DecidableEq, Repr

/-- A document-AI entity: type tag, text mention, nested properties. -/
structure Entity where
  type_ : String
  mention_text : String
  properties : List EntityProp := []
deriving DecidableEq, Repr

/-- The intermediate record built by DocumentProcessor._extract_invoice_data:
Python dicts with possibly-missing keys are modelled with `Option` fields,
`none` meaning the key is absent. -/
structure InvoiceData where
  vendor_name : Option String := none
  vendor_address : Option String := none
  invoice_id : Option String := none
  invoice_date : Option String := none
  total : Option String := none
  line_items : List LineItem := []
  raw_text : String := ""
deriving DecidableEq, Repr

/-- One step of DocumentProcessor._parse_line_item's property loop. -/
def updProp (li : LineItem) (p : EntityProp) : LineItem :=
  if p.type_ = "line_item/description" then { li with description := p.mention_text }
  else if p.type_ = "line_item/quantity" then { li with quantity := p.mention_text }
  else if p.type_ = "line_item/unit_price" then { li with unit_price := p.mention_text }
  else if p.type_ = "line_item/amount" then { li with total_price := p.mention_text }
  else li

/-- DocumentProcessor._parse_line_item. -/
def parse_line_item (e : Entity) : LineItem := e.properties.foldl updProp {}

/-- One step of DocumentProcessor._extract_invoice_data's entity loop:
each recognized type overwrites its destination field (so a later entity of
the same type wins), `line_item` appends, anything else is ignored. -/
def updEntity (acc : InvoiceData) (e : Entity) : InvoiceData :=
  if e.type_ = "supplier_name" then { acc with vendor_name := some e.mention_text }
  else if e.type_ = "supplier_address" then { acc with vendor_address := some e.mention_text }
  else if e.type_ = "invoice_id" then { acc with invoice_id := some e.mention_text }
  else if e.type_ = "invoice_date" then { acc with invoice_date := some e.mention_text }
  else if e.type_ = "total_amount" then { acc with total := some e.mention_text }
  else if e.type_ = "line_item" then { acc with line_items := acc.line_items ++ [parse_line_item e] }
  else acc

/-- DocumentProcessor._extract_invoice_data: a single pass over the entity
list starting from the empty record. -/
def extract_invoice_data (text : String) (entities : List Entity) : InvoiceData :=
  entities.foldl updEntity { raw_text := text }

/-- The entity type tags recognized by DocumentProcessor._extract_invoice_data. -/
def recognizedTypes : List String :=
  ["supplier_name", "supplier_address", "invoice_id", "invoice_date", "total_amount", "line_item"]

/-- One row of the DataFrame right after the metadata columns are assigned
in DataProcessor.process_invoice_data, before _clean_data runs: every cell
is still a raw string. -/
structure RawRow where
  description : String
  quantity : String
  unit_price : String
  total_price : String
  invoice_id : String
  vendor_name : String
  invoice_date : String
  processed_timestamp : String
deriving DecidableEq, Repr

/-- One cleaned row of the consolidated table.  `source_file` is assigned
later by InvoiceProcessorApp._process_files; until then it is the empty
string (the column does not exist yet). -/
structure Row where
  description : String
  quantity : ℚ
  unit_price : ℚ
  total_price : ℚ
  invoice_id : String
  vendor_name : String
  invoice_date : Option Date
  processed_timestamp : String
  source_file : String := ""
deriving DecidableEq, Repr

/-- The raw row of one line item in DataProcessor.process_invoice_data:
DataFrame creation from the line item plus the three broadcast metadata
columns (`dict.get` defaults modelled by `Option.getD`) and the timestamp
column, `now` being the value of `datetime.now().isoformat()`. -/
def mkRawRow (d : InvoiceData) (now : String) (it : LineItem) : RawRow :=
  { description := it.description
    quantity := it.quantity
    unit_price := it.unit_price
    total_price := it.total_price
    invoice_id := d.invoice_id.getD ""
    vendor_name := d.vendor_name.getD ""
    invoice_date := d.invoice_date.getD ""
    processed_timestamp := now }

/-- DataProcessor._clean_data on one row: the numeric columns go through
_extract_numeric, description and vendor_name are stripped and title-cased,
invoice_date goes through `pd.to_datetime(..., errors='coerce')`.  The
pandas column operations are elementwise, so the row-wise form is exact. -/
def clean_row (r : RawRow) : Row :=
  { description := clean_text r.description
    quantity := extract_numeric r.quantity
    unit_price := extract_numeric r.unit_price
    total_price := extract_numeric r.total_price
    invoice_id := r.invoice_id
    vendor_name := clean_text r.vendor_name
    invoice_date := parse_date r.invoice_date
    processed_timestamp := r.processed_timestamp }

/-- The DataFrame returned by DataProcessor.process_invoice_data: empty when
there are no line items, otherwise one cleaned row per line item. -/
def invoiceRows (d : InvoiceData) (now : String) : List Row :=
  if d.line_items.isEmpty then []
  else (d.line_items.map (mkRawRow d now)).map clean_row

/-- The mutable state of a DataProcessor instance: `self.processed_data`,
`none` before the first assignment (Python `None`). -/
structure DataProcessor where
  processed_data : Option (List Row) := none
deriving DecidableEq, Repr

/-- DataProcessor.process_invoice_data: on an empty line-item list it
returns an empty DataFrame without touching `self.processed_data`;
otherwise it builds the cleaned per-line-item DataFrame, stores it in
`self.processed_data`, and returns it. -/
def process_invoice_data (p : DataProcessor) (d : InvoiceData) (now : String) :
    DataProcessor × List Row :=
  if d.line_items.isEmpty then (p, [])
  else ({ processed_data := some (invoiceRows d now) }, invoiceRows d now)

/-- The summary record built by DataProcessor.get_summary_statistics. -/
structure SummaryStats where
  total_items : ℕ
  total_amount : ℚ
  average_item_price : ℚ
  unique_vendors : ℕ
  date_range_start : Option Date
  date_range_end : Option Date
deriving DecidableEq, Repr

/-- One comparison step of the running minimum over a date column. -/
def dateMinStep (acc : Option Date) (d : Date) : Option Date :=
  match acc with
  | none => some d
  | some m => if d.enc < m.enc then some d else some m

/-- One comparison step of the running maximum over a date column. -/
def dateMaxStep (acc : Option Date) (d : Date) : Option Date :=
  match acc with
  | none => some d
  | some m => if m.enc < d.enc then some d else some m

/-- Minimum of a list of dates (pandas `Series.min` after NaT values have
been dropped); `none` on the empty list (all-NaT column). -/
def dateMin? (l : List Date) : Option Date := l.foldl dateMinStep none

/-- Maximum of a list of dates; `none` on the empty list. -/
def dateMax? (l : List Date) : Option Date := l.foldl dateMaxStep none

/-- The statistics dictionary of DataProcessor.get_summary_statistics as a
function of the DataFrame it reads: row count, sum and mean of total_price,
`nunique` of vendor_name (count of distinct values), min and max of the
non-NaT invoice dates. -/
def summaryOf (df : List Row) : SummaryStats :=
  { total_items := df.length
    total_amount := (df.map Row.total_price).sum
    average_item_price := (df.map Row.total_price).sum / (df.length : ℚ)
    unique_vendors := (df.map Row.vendor_name).dedup.length
    date_range_start := dateMin? (df.filterMap Row.invoice_date)
    date_range_end := dateMax? (df.filterMap Row.invoice_date) }

/-- DataProcessor.get_summary_statistics: reads `self.processed_data` (it
takes no table argument) and returns the empty dictionary, modelled as
`none`, when that attribute is `None` or the stored DataFrame is empty. -/
def get_summary_statistics (p : DataProcessor) : Option SummaryStats :=
  match p.processed_data with
  | none => none
  | some df => if df.isEmpty then none else some (summaryOf df)

/-- The per-file rows contributed by one document inside
InvoiceProcessorApp._process_files: the DataFrame from
process_invoice_data with the `source_file` column assigned. -/
def fileRows (d : InvoiceData) (source now : String) : List Row :=
  (invoiceRows d now).map (fun r => { r with source_file := source })

/-- The loop of InvoiceProcessorApp._process_files: processes the documents
in order, threading the DataProcessor state, assigning `source_file`, and
collecting each non-empty DataFrame into `all_data`; `clock i` is the value
of `datetime.now().isoformat()` at step `i`. -/
def process_files_loop (p : DataProcessor) (docs : List (InvoiceData × String))
    (clock : ℕ → String) (i : ℕ) : DataProcessor × List (List Row) :=
  match docs with
  | [] => (p, [])
  | (d, src) :: rest =>
    let step := process_invoice_data p d (clock i)
    let df := step.2.map (fun r => { r with source_file := src })
    let next := process_files_loop step.1 rest clock (i + 1)
    if df.isEmpty then next else (next.1, df :: next.2)

/-- InvoiceProcessorApp._process_files: the consolidated table
`pd.concat(all_data, ignore_index=True)` over the uploaded documents. -/
def process_files (docs : List (InvoiceData × String)) (clock : ℕ → String) : List Row :=
  (process_files_loop { } docs clock 0).2.flatten

/-- A file write performed by one of ExportManager's private exporters. -/
inductive ExportEffect where
  | writeCSV (path : String) (df : List Row)
  | writeExcel (path : String) (df : List Row)
  | writeJSON (path : String) (df : List Row)
deriving DecidableEq, Repr

/-- settings.EXPORT_DIR. -/
def EXPORT_DIR : String := "data/exports"

/-- ExportManager.export_data: computes the export path (pure string work,
no file is touched), dispatches on `format_type.upper()`, and raises
`ValueError(f"Unsupported format: ...")` on anything outside CSV, Excel and
JSON.  The result models the raised exception as `Except.error` carrying the
exception message; a success carries the returned path together with the
single file write the chosen branch performs, so an error result performs no
I/O at all. -/
def export_data (df : List Row) (format_type filename : String) :
    Except String (String × ExportEffect) :=
  let export_path := EXPORT_DIR ++ "/" ++ filename ++ "." ++ str_lower format_type
  if str_upper format_type = "CSV" then Except.ok (export_path, ExportEffect.writeCSV export_path df)
  else if str_upper format_type = "EXCEL" then Except.ok (export_path, ExportEffect.writeExcel export_path df)
  else if str_upper format_type = "JSON" then Except.ok (export_path, ExportEffect.writeJSON export_path df)
  else Except.error ("Unsupported format: " ++ format_type)

/-- ASCII codes of the decimal digit characters, for concrete evaluation. -/
theorem toNat_digit0 : '0'.toNat = 48 := rfl

theorem toNat_digit1 : '1'.toNat = 49 := rfl

theorem toNat_digit2 : '2'.toNat = 50 := rfl

theorem toNat_digit3 : '3'.toNat = 51 := rfl

theorem toNat_digit4 : '4'.toNat = 52 := rfl

theorem toNat_digit5 : '5'.toNat = 53 := rfl

theorem toNat_digit6 : '6'.toNat = 54 := rfl

theorem toNat_digit7 : '7'.toNat = 55 := rfl

theorem toNat_digit8 : '8'.toNat = 56 := rfl

theorem toNat_digit9 : '9'.toNat = 57 := rfl

/-- C1: numeric normalization strips every character other than digits, `.`
and `,`, removes the commas, parses the remainder as a float, and returns 0.0
on empty input or parse failure; it agrees with the spec's wording on every
input string and maps "$1,234.56" to 1234.56, "" to 0.0 and "N/A" to 0.0
(totality of `extract_numeric` models "never raises"). -/
theorem c1 :
    (∀ s : String, extract_numeric s = normalizeNumericSpec s) ∧
    extract_numeric "$1,234.56" = 1234.56 ∧
    extract_numeric "" = 0 ∧
    extract_numeric "N/A" = 0 := by
  refine ⟨?_, ?_, by rfl, ?_⟩
  · intro s
    by_cases h : s = ""
    · subst h; rfl
    · simp only [extract_numeric, normalizeNumericSpec, if_neg h]
  · simp +decide only [extract_numeric, pyFloat?, pyIntLoop, pyFracLoop]
    norm_num [toNat_digit1, toNat_digit2, toNat_digit3, toNat_digit4, toNat_digit5, toNat_digit6]
  · simp +decide only [extract_numeric, pyFloat?, pyIntLoop, pyFracLoop]

/-- The rows returned by process_invoice_data do not depend on the incoming
processor state. -/
theorem process_invoice_data_snd (p : DataProcessor) (d : InvoiceData) (now : String) :
    (process_invoice_data p d now).2 = invoiceRows d now := by
  unfold process_invoice_data
  split
  · simp [invoiceRows, *]
  · rfl

/-- fileRows is one cleaned, source-tagged row per line item, in order. -/
theorem fileRows_eq_map (d : InvoiceData) (src now : String) :
    fileRows d src now =
      d.line_items.map (fun it => { clean_row (mkRawRow d now it) with source_file := src }) := by
  unfold fileRows invoiceRows
  by_cases h : d.line_items.isEmpty
  · rw [if_pos h]
    rw [List.isEmpty_iff] at h
    simp [h]
  · rw [if_neg h, List.map_map, List.map_map]
    rfl

/-- C4: the table builder emits exactly one row per line item in line-item
order (an empty line-item list gives the empty row sequence, with no error
since the builder is a total function), and every emitted row carries the
record-level vendor name (cleaned), invoice id and parsed invoice date,
plus the supplied source file and the build-time timestamp `now`. -/
theorem c4 (d : InvoiceData) (src now : String) :
    fileRows d src now =
      d.line_items.map (fun it => { clean_row (mkRawRow d now it) with source_file := src }) ∧
    (d.line_items = [] → fileRows d src now = []) ∧
    ∀ r ∈ fileRows d src now,
      r.vendor_name = clean_text (d.vendor_name.getD "") ∧
      r.invoice_id = d.invoice_id.getD "" ∧
      r.invoice_date = parse_date (d.invoice_date.getD "") ∧
      r.source_file = src ∧
      r.processed_timestamp = now := by
  refine ⟨fileRows_eq_map d src now, ?_, ?_⟩
  · intro h
    rw [fileRows_eq_map, h]
    rfl
  · intro r hr
    rw [fileRows_eq_map] at hr
    rcases List.mem_map.mp hr with ⟨it, _, rfl⟩
    exact ⟨rfl, rfl, rfl, rfl, rfl⟩

/-- C5: date normalization is a pure function that either yields a
calendar-valid date or `none` on unparseable input — it never raises (it is
total) and never substitutes the current time (the rows' invoice dates do
not depend on the build-time clock value `now`); "not a date" yields `none`
and "2024-01-15" yields the date 2024-01-15. -/
theorem c5 :
    (∀ (s : String) (dt : Date), parse_date s = some dt → dt.valid) ∧
    parse_date "not a date" = none ∧
    parse_date "2024-01-15" = some ⟨2024, 1, 15⟩ ∧
    ∀ (d : InvoiceData) (src now now' : String),
      (fileRows d src now).map Row.invoice_date = (fileRows d src now').map Row.invoice_date := by
  refine ⟨?_, by decide, by decide, ?_⟩
  · intro s dt h
    unfold parse_date at h
    rcases hsp : splitOnChar '-' (trimChars s.data) with _ | ⟨a, _ | ⟨b, _ | ⟨c, _ | tl⟩⟩⟩ <;>
      rw [hsp] at h
    · exact Option.noConfusion h
    · exact Option.noConfusion h
    · exact Option.noConfusion h
    · simp only [parseDateParts] at h
      split_ifs at h with h1 h2
      rcases Option.some.inj h with rfl
      exact ⟨h2.1, h2.2.1, h2.2.2.1, h2.2.2.2⟩
    · exact Option.noConfusion h
  · intro d src now now'
    rw [fileRows_eq_map, fileRows_eq_map, List.map_map, List.map_map]
    rfl

/-- C5 witness: applying the validity part of `c5` at the concrete parse of
"2024-01-15". -/
theorem c5_witness : Date.valid ⟨2024, 1, 15⟩ :=
  c5.1 "2024-01-15" ⟨2024, 1, 15⟩ (by decide)

/-- C9: export with a format string outside CSV/Excel/JSON (up to the
`.upper()` the code applies) fails with the `ValueError` message naming the
offending format string; the error is produced by the dispatch itself, before
any branch that performs file I/O runs, so no write effect is produced —
`Except.error` carries no `ExportEffect`. -/
theorem c9 (df : List Row) (format_type filename : String)
    (h : str_upper format_type ∉ (["CSV", "EXCEL", "JSON"] : List String)) :
    export_data df format_type filename =
      Except.error ("Unsupported format: " ++ format_type) := by
  unfold export_data
  split_ifs with h1 h2 h3
  · rw [h1] at h; exact absurd (by decide) h
  · rw [h2] at h; exact absurd (by decide) h
  · rw [h3] at h; exact absurd (by decide) h
  · rfl

/-- C9 witness: export_data with format "XML" fails with the message naming
"XML" and produces no file write. -/
theorem c9_witness :
    export_data [] "XML" "report" = Except.error ("Unsupported format: " ++ "XML") :=
  c9 [] "XML" "report" (by decide)

/-- An entity whose type tag is not in the recognized vocabulary leaves the
accumulating record untouched. -/
theorem updEntity_unrecognized (acc : InvoiceData) (e : Entity)
    (h : ¬ e.type_ ∈ recognizedTypes) : updEntity acc e = acc := by
  simp only [recognizedTypes, List.mem_cons, List.not_mem_nil, or_false] at h
  push_neg at h
  unfold updEntity
  rw [if_neg h.1, if_neg h.2.1, if_neg h.2.2.1, if_neg h.2.2.2.1, if_neg h.2.2.2.2.1,
    if_neg h.2.2.2.2.2]

/-- Folding the entity-loop step over a list keeps only the recognized
entities' effects: filtering the unrecognized entities away first changes
nothing. -/
theorem foldl_updEntity_filter (es : List Entity) :
    ∀ acc : InvoiceData,
      es.foldl updEntity acc =
        (es.filter (fun e => decide (e.type_ ∈ recognizedTypes))).foldl updEntity acc := by
  induction es with
  | nil => intro acc; rfl
  | cons e rest ih =>
    intro acc
    by_cases h : e.type_ ∈ recognizedTypes
    · rw [List.foldl_cons, List.filter_cons_of_pos (by simpa using h), List.foldl_cons, ih]
    · rw [List.foldl_cons, List.filter_cons_of_neg (by simpa using h),
        updEntity_unrecognized acc e h, ih]

/-- C3: in DocumentProcessor._extract_invoice_data each of the five
recognized top-level entity types determines exactly one destination field,
whose final content is the mention text of the LAST entity of that type in
the list (`none` when the type never occurs, i.e. the dict key is absent);
and entities with an unrecognized type leave the record unaffected, since
dropping them from the input changes nothing. -/
theorem c3 (text : String) (es : List Entity) :
    (extract_invoice_data text es).vendor_name =
      ((es.filter (fun e => e.type_ == "supplier_name")).getLast?).map Entity.mention_text ∧
    (extract_invoice_data text es).vendor_address =
      ((es.filter (fun e => e.type_ == "supplier_address")).getLast?).map Entity.mention_text ∧
    (extract_invoice_data text es).invoice_id =
      ((es.filter (fun e => e.type_ == "invoice_id")).getLast?).map Entity.mention_text ∧
    (extract_invoice_data text es).invoice_date =
      ((es.filter (fun e => e.type_ == "invoice_date")).getLast?).map Entity.mention_text ∧
    (extract_invoice_data text es).total =
      ((es.filter (fun e => e.type_ == "total_amount")).getLast?).map Entity.mention_text ∧
    extract_invoice_data text (es.filter (fun e => decide (e.type_ ∈ recognizedTypes))) =
      extract_invoice_data text es := by
  refine ?_
  have main : ∀ l : List Entity,
      (extract_invoice_data text l).vendor_name =
        ((l.filter (fun e => e.type_ == "supplier_name")).getLast?).map Entity.mention_text ∧
      (extract_invoice_data text l).vendor_address =
        ((l.filter (fun e => e.type_ == "supplier_address")).getLast?).map Entity.mention_text ∧
      (extract_invoice_data text l).invoice_id =
        ((l.filter (fun e => e.type_ == "invoice_id")).getLast?).map Entity.mention_text ∧
      (extract_invoice_data text l).invoice_date =
        ((l.filter (fun e => e.type_ == "invoice_date")).getLast?).map Entity.mention_text ∧
      (extract_invoice_data text l).total =
        ((l.filter (fun e => e.type_ == "total_amount")).getLast?).map Entity.mention_text := by
    intro l
    induction l using List.reverseRecOn with
    | nil => exact ⟨rfl, rfl, rfl, rfl, rfl⟩
    | append_singleton l e ih =>
      have hfold : extract_invoice_data text (l ++ [e]) =
          updEntity (extract_invoice_data text l) e := by
        unfold extract_invoice_data
        rw [List.foldl_append]
        rfl
      have hfilter : ∀ p : Entity → Bool,
          ((l ++ [e]).filter p).getLast?.map Entity.mention_text =
            if p e then some e.mention_text
            else ((l.filter p).getLast?).map Entity.mention_text := by
        intro p
        rw [List.filter_append]
        by_cases hp : p e
        · simp [hp]
        · simp [hp]
      rw [hfold]
      unfold updEntity
      split_ifs with h1 h2 h3 h4 h5 h6 <;>
        refine ⟨?_, ?_, ?_, ?_, ?_⟩ <;>
          simp_all [hfilter]
  exact ⟨(main es).1, (main es).2.1, (main es).2.2.1, (main es).2.2.2.1, (main es).2.2.2.2,
    (foldl_updEntity_filter es _).symm⟩

/-- The processing loop of _process_files, started at any step index and any
processor state, flattens to the per-document row blocks indexed by their
step positions: the processor state threaded through the loop never changes
which rows a document contributes. -/
theorem process_files_loop_flatten (clock : ℕ → String) :
    ∀ (docs : List (InvoiceData × String)) (p : DataProcessor) (i : ℕ),
      (process_files_loop p docs clock i).2.flatten =
        (((List.range' i docs.length).zip docs).map
          (fun x => fileRows x.2.1 x.2.2 (clock x.1))).flatten := by
  intro docs
  induction docs with
  | nil => intro p i; rfl
  | cons hd rest ih =>
    intro p i
    rcases hd with ⟨d, src⟩
    have hrows : ((process_invoice_data p d (clock i)).2).map
        (fun r => { r with source_file := src }) = fileRows d src (clock i) := by
      rw [process_invoice_data_snd]
      rfl
    simp only [process_files_loop, hrows, List.length_cons, List.range'_succ, List.zip_cons_cons,
      List.map_cons]
    by_cases hemp : (fileRows d src (clock i)).isEmpty
    · rw [if_pos hemp, List.isEmpty_iff.mp hemp, List.flatten_cons, List.nil_append]
      exact ih _ (i + 1)
    · rw [if_neg hemp, List.flatten_cons, List.flatten_cons, ih _ (i + 1)]

/-- C6: the consolidated table produced by _process_files is exactly the
concatenation of the per-document row blocks in input order — every earlier
document's rows precede every later document's rows and each block keeps its
original line-item order; concatenation neither removes duplicate rows nor
reorders anything. -/
theorem c6 (docs : List (InvoiceData × String)) (clock : ℕ → String) :
    process_files docs clock =
      (((List.range docs.length).zip docs).map
        (fun x => fileRows x.2.1 x.2.2 (clock x.1))).flatten := by
  unfold process_files
  rw [process_files_loop_flatten clock docs { } 0, List.range_eq_range']

/-- Folding the running minimum from a seed `m` yields an element of
`m :: l` that bounds `m` and every element of `l` from below. -/
theorem dateMin?_go (l : List Date) :
    ∀ m : Date, ∃ r, l.foldl dateMinStep (some m) = some r ∧ (r = m ∨ r ∈ l) ∧
      r.enc ≤ m.enc ∧ ∀ x ∈ l, r.enc ≤ x.enc := by
  induction l with
  | nil =>
    intro m
    exact ⟨m, rfl, Or.inl rfl, le_refl _, by simp⟩
  | cons d rest ih =>
    intro m
    by_cases h : d.enc < m.enc
    · obtain ⟨r, h1, h2, h3, h4⟩ := ih d
      refine ⟨r, ?_, ?_, ?_, ?_⟩
      · rw [List.foldl_cons]; simpa [dateMinStep, h] using h1
      · rcases h2 with rfl | hr
        · exact Or.inr (List.mem_cons_self ..)
        · exact Or.inr (List.mem_cons_of_mem _ hr)
      · exact le_trans h3 (le_of_lt h)
      · intro x hx
        rcases List.mem_cons.mp hx with rfl | hx
        · exact h3
        · exact h4 x hx
    · obtain ⟨r, h1, h2, h3, h4⟩ := ih m
      refine ⟨r, ?_, ?_, h3, ?_⟩
      · rw [List.foldl_cons]; simpa [dateMinStep, h] using h1
      · rcases h2 with rfl | hr
        · exact Or.inl rfl
        · exact Or.inr (List.mem_cons_of_mem _ hr)
      · intro x hx
        rcases List.mem_cons.mp hx with rfl | hx
        · exact le_trans h3 (not_lt.mp h)
        · exact h4 x hx

/-- Folding the running maximum from a seed `m` yields an element of
`m :: l` that bounds `m` and every element of `l` from above. -/
theorem dateMax?_go (l : List Date) :
    ∀ m : Date, ∃ r, l.foldl dateMaxStep (some m) = some r ∧ (r = m ∨ r ∈ l) ∧
      m.enc ≤ r.enc ∧ ∀ x ∈ l, x.enc ≤ r.enc := by
  induction l with
  | nil =>
    intro m
    exact ⟨m, rfl, Or.inl rfl, le_refl _, by simp⟩
  | cons d rest ih =>
    intro m
    by_cases h : m.enc < d.enc
    · obtain ⟨r, h1, h2, h3, h4⟩ := ih d
      refine ⟨r, ?_, ?_, ?_, ?_⟩
      · rw [List.foldl_cons]; simpa [dateMaxStep, h] using h1
      · rcases h2 with rfl | hr
        · exact Or.inr (List.mem_cons_self ..)
        · exact Or.inr (List.mem_cons_of_mem _ hr)
      · exact le_trans (le_of_lt h) h3
      · intro x hx
        rcases List.mem_cons.mp hx with rfl | hx
        · exact h3
        · exact h4 x hx
    · obtain ⟨r, h1, h2, h3, h4⟩ := ih m
      refine ⟨r, ?_, ?_, h3, ?_⟩
      · rw [List.foldl_cons]; simpa [dateMaxStep, h] using h1
      · rcases h2 with rfl | hr
        · exact Or.inl rfl
        · exact Or.inr (List.mem_cons_of_mem _ hr)
      · intro x hx
        rcases List.mem_cons.mp hx with rfl | hx
        · exact le_trans (not_lt.mp h) h3
        · exact h4 x hx

/-- dateMin? of a nonempty list is an element bounding the list below. -/
theorem dateMin?_spec (l : List Date) (h : l ≠ []) :
    ∃ a, dateMin? l = some a ∧ a ∈ l ∧ ∀ x ∈ l, a.enc ≤ x.enc := by
  rcases l with _ | ⟨d, rest⟩
  · exact absurd rfl h
  · obtain ⟨r, h1, h2, h3, h4⟩ := dateMin?_go rest d
    refine ⟨r, h1, ?_, ?_⟩
    · rcases h2 with rfl | hr
      · exact List.mem_cons_self ..
      · exact List.mem_cons_of_mem _ hr
    · intro x hx
      rcases List.mem_cons.mp hx with rfl | hx
      · exact h3
      · exact h4 x hx

/-- dateMax? of a nonempty list is an element bounding the list above. -/
theorem dateMax?_spec (l : List Date) (h : l ≠ []) :
    ∃ b, dateMax? l = some b ∧ b ∈ l ∧ ∀ x ∈ l, x.enc ≤ b.enc := by
  rcases l with _ | ⟨d, rest⟩
  · exact absurd rfl h
  · obtain ⟨r, h1, h2, h3, h4⟩ := dateMax?_go rest d
    refine ⟨r, h1, ?_, ?_⟩
    · rcases h2 with rfl | hr
      · exact List.mem_cons_self ..
      · exact List.mem_cons_of_mem _ hr
    · intro x hx
      rcases List.mem_cons.mp hx with rfl | hx
      · exact h3
      · exact h4 x hx

/-- C7: on a nonempty table the summary formulas are: row count, total =
sum of total_price, average = total / count (arithmetic mean over rows, not
quantity-weighted, stated multiplicatively), unique_vendors = number of
distinct vendor_name values under exact case-sensitive equality, and the
date range is the minimum and maximum of the non-null invoice dates, both
`none` exactly when every date is null. -/
theorem c7 (df : List Row) (h : df ≠ []) :
    (summaryOf df).total_items = df.length ∧
    (summaryOf df).total_amount = (df.map Row.total_price).sum ∧
    (summaryOf df).average_item_price * (df.length : ℚ) = (df.map Row.total_price).sum ∧
    (summaryOf df).unique_vendors = (df.map Row.vendor_name).toFinset.card ∧
    (df.filterMap Row.invoice_date = [] →
      (summaryOf df).date_range_start = none ∧ (summaryOf df).date_range_end = none) ∧
    (df.filterMap Row.invoice_date ≠ [] →
      ∃ a b, (summaryOf df).date_range_start = some a ∧ (summaryOf df).date_range_end = some b ∧
        a ∈ df.filterMap Row.invoice_date ∧ b ∈ df.filterMap Row.invoice_date ∧
        ∀ x ∈ df.filterMap Row.invoice_date, a.enc ≤ x.enc ∧ x.enc ≤ b.enc) := by
  have hlen : (df.length : ℚ) ≠ 0 := by
    exact_mod_cast fun hc => h (List.length_eq_zero.mp hc)
  refine ⟨rfl, rfl, ?_, (List.card_toFinset _).symm, ?_, ?_⟩
  · exact div_mul_cancel₀ _ hlen
  · intro hd
    constructor
    · show dateMin? (df.filterMap Row.invoice_date) = none
      rw [hd]; rfl
    · show dateMax? (df.filterMap Row.invoice_date) = none
      rw [hd]; rfl
  · intro hd
    obtain ⟨a, ha1, ha2, ha3⟩ := dateMin?_spec _ hd
    obtain ⟨b, hb1, hb2, hb3⟩ := dateMax?_spec _ hd
    exact ⟨a, b, ha1, hb1, ha2, hb2, fun x hx => ⟨ha3 x hx, hb3 x hx⟩⟩

/-- First row of the concrete three-row table used to witness `c7`. -/
def cRow1 : Row :=
  { description := "Widget", quantity := 1, unit_price := 10, total_price := 10,
    invoice_id := "I1", vendor_name := "VendorA", invoice_date := some ⟨2024, 1, 10⟩,
    processed_timestamp := "t0", source_file := "a.pdf" }

/-- Second row of the concrete three-row table used to witness `c7`. -/
def cRow2 : Row :=
  { description := "Gadget", quantity := 2, unit_price := 10, total_price := 20,
    invoice_id := "I1", vendor_name := "VendorA", invoice_date := some ⟨2024, 1, 12⟩,
    processed_timestamp := "t0", source_file := "a.pdf" }

/-- Third row of the concrete three-row table used to witness `c7`. -/
def cRow3 : Row :=
  { description := "Gizmo", quantity := 3, unit_price := 10, total_price := 30,
    invoice_id := "I2", vendor_name := "VendorB", invoice_date := none,
    processed_timestamp := "t1", source_file := "b.pdf" }

/-- Concrete table with total_price column [10, 20, 30]. -/
def cTable : List Row := [cRow1, cRow2, cRow3]

/-- C7 witness: on the concrete table with totals [10, 20, 30] the summary
has totalAmount 60 and averageItemPrice 20. -/
theorem c7_witness :
    (summaryOf cTable).total_amount = 60 ∧
    (summaryOf cTable).average_item_price = 20 ∧
    (summaryOf cTable).unique_vendors = (cTable.map Row.vendor_name).toFinset.card := by
  have h := c7 cTable (by decide)
  have hsum : (cTable.map Row.total_price).sum = 60 := by
    norm_num [cTable, cRow1, cRow2, cRow3]
  have hlen : ((cTable.length : ℕ) : ℚ) = 3 := by norm_num [cTable]
  have havg := h.2.2.1
  rw [hsum, hlen] at havg
  refine ⟨h.2.1.trans hsum, by linarith, h.2.2.2.1⟩

/-- Concrete document A: one line item with total price "10.00". -/
def cDocA : InvoiceData :=
  { vendor_name := some "Acme Corp", invoice_id := some "INV-001",
    invoice_date := some "2024-01-10",
    line_items := [{ description := "Widget", quantity := "1",
                     unit_price := "10.00", total_price := "10.00" }] }

/-- Concrete document B: one line item with total price "20.00". -/
def cDocB : InvoiceData :=
  { vendor_name := some "Globex", invoice_id := some "INV-002",
    invoice_date := some "2024-01-11",
    line_items := [{ description := "Gadget", quantity := "1",
                     unit_price := "20.00", total_price := "20.00" }] }

/-- C2 counterexample: after processing documents A then B through the same
DataProcessor, get_summary_statistics reports 1 item — the statistics of the
most recently processed document only — while the consolidated table of the
batch has 2 rows.  So the code's summary is NOT a function of the
consolidated-table snapshot: it is computed from `self.processed_data`,
which holds only the last document's DataFrame. -/
theorem c2_counterexample :
    (get_summary_statistics
        (process_invoice_data (process_invoice_data { } cDocA "t1").1 cDocB "t2").1).map
      SummaryStats.total_items = some 1 ∧
    (summaryOf (fileRows cDocA "a.pdf" "t1" ++ fileRows cDocB "b.pdf" "t2")).total_items = 2 := by
  constructor
  · rfl
  · rfl

/-- C2 amended: get_summary_statistics does recompute its statistics in full
on each call with no caching, but over the processor's stored DataFrame —
the one saved by the most recent process_invoice_data call whose document
had line items (a call with no line items leaves the stored state untouched)
— not over a consolidated multi-document table; it therefore depends on
which document was processed most recently. -/
theorem c2_amended (p : DataProcessor) (d : InvoiceData) (now : String) :
    (d.line_items ≠ [] →
      get_summary_statistics (process_invoice_data p d now).1 =
        some (summaryOf (invoiceRows d now))) ∧
    (d.line_items = [] → (process_invoice_data p d now).1 = p) := by
  by_cases hemp : d.line_items.isEmpty
  · rw [List.isEmpty_iff] at hemp
    refine ⟨fun hc => absurd hemp hc, fun _ => ?_⟩
    unfold process_invoice_data
    rw [if_pos (List.isEmpty_iff.mpr hemp)]
  · have hne : d.line_items ≠ [] := fun hc => hemp (List.isEmpty_iff.mpr hc)
    refine ⟨fun _ => ?_, fun hc => absurd hc hne⟩
    unfold process_invoice_data
    rw [if_neg hemp]
    have hrows : (invoiceRows d now).isEmpty = false := by
      unfold invoiceRows
      rw [if_neg hemp]
      refine Bool.eq_false_iff.mpr ?_
      intro hb
      rw [List.isEmpty_iff] at hb
      simp [List.map_eq_nil_iff, hne] at hb
    unfold get_summary_statistics
    simp only [hrows]
    rfl

/-- C2 amended witness: applying `c2_amended` to document A from a fresh
processor. -/
theorem c2_amended_witness :
    get_summary_statistics (process_invoice_data { } cDocA "t1").1 =
      some (summaryOf (invoiceRows cDocA "t1")) :=
  (c2_amended { } cDocA "t1").1 (by decide)

/-- Every value the fractional parse phase can return is a natural number
divided by a power of ten. -/
theorem pyFracLoop_decimal (cs : List Char) :
    ∀ (seen : Bool) (ip fa fl : ℕ) (q : ℚ), pyFracLoop seen ip fa fl cs = some q →
      ∃ n k : ℕ, q = (n : ℚ) / 10 ^ k := by
  induction cs with
  | nil =>
    intro seen ip fa fl q h
    unfold pyFracLoop at h
    split_ifs at h
    rcases Option.some.inj h with rfl
    refine ⟨ip * 10 ^ fl + fa, fl, ?_⟩
    push_cast
    rw [add_div, mul_div_cancel_right₀]
    positivity
  | cons c rest ih =>
    intro seen ip fa fl q h
    unfold pyFracLoop at h
    split_ifs at h
    exact ih _ _ _ _ _ h

/-- Every value the integer parse phase can return is a natural number
divided by a power of ten. -/
theorem pyIntLoop_decimal (cs : List Char) :
    ∀ (seen : Bool) (acc : ℕ) (q : ℚ), pyIntLoop seen acc cs = some q →
      ∃ n k : ℕ, q = (n : ℚ) / 10 ^ k := by
  induction cs with
  | nil =>
    intro seen acc q h
    unfold pyIntLoop at h
    split_ifs at h
    rcases Option.some.inj h with rfl
    exact ⟨acc, 0, by norm_num⟩
  | cons c rest ih =>
    intro seen acc q h
    unfold pyIntLoop at h
    split_ifs at h
    · exact ih _ _ _ h
    · exact pyFracLoop_decimal rest _ _ _ _ _ h

/-- The fallback match of _extract_numeric around the float parse always
yields a natural number divided by a power of ten. -/
theorem pyFloat_match_decimal (t : String) :
    ∃ n k : ℕ,
      (match pyFloat? t with | some q => q | none => (0 : ℚ)) = (n : ℚ) / 10 ^ k := by
  rcases hp : pyFloat? t with _ | q
  · refine ⟨0, 0, ?_⟩
    show (0 : ℚ) = (0 : ℕ) / 10 ^ 0
    norm_num
  · refine ?_
    show ∃ n k : ℕ, q = (n : ℚ) / 10 ^ k
    exact pyIntLoop_decimal _ _ _ _ hp

/-- Every value of extract_numeric is a natural number divided by a power of
ten (a non-negative finite decimal). -/
theorem extract_numeric_decimal (s : String) :
    ∃ n k : ℕ, extract_numeric s = (n : ℚ) / 10 ^ k := by
  unfold extract_numeric
  split_ifs
  · exact ⟨0, 0, by norm_num⟩
  · exact pyFloat_match_decimal _

/-- C10: numeric normalization never produces a negative value, since the
minus sign is stripped with every other non-digit non-dot non-comma
character; in particular "-5.00" normalizes to 5.0; consequently the
quantity, unit price and total price of every built row are ≥ 0. -/
theorem c10 :
    (∀ s : String, 0 ≤ extract_numeric s) ∧
    extract_numeric "-5.00" = 5 ∧
    ∀ (d : InvoiceData) (src now : String), ∀ r ∈ fileRows d src now,
      0 ≤ r.quantity ∧ 0 ≤ r.unit_price ∧ 0 ≤ r.total_price := by
  have hnn : ∀ s : String, 0 ≤ extract_numeric s := by
    intro s
    obtain ⟨n, k, hs⟩ := extract_numeric_decimal s
    rw [hs]
    positivity
  refine ⟨hnn, ?_, ?_⟩
  · simp +decide only [extract_numeric, pyFloat?, pyIntLoop, pyFracLoop]
    norm_num [toNat_digit5, toNat_digit0]
  · intro d src now r hr
    rw [fileRows_eq_map] at hr
    rcases List.mem_map.mp hr with ⟨it, _, rfl⟩
    exact ⟨hnn _, hnn _, hnn _⟩

/-- The line item of the concrete negative-amount document. -/
def cNegItem : LineItem :=
  { description := "Refund", quantity := "-1", unit_price := "-5.00", total_price := "-5.00" }

/-- Concrete document whose line item carries negative amounts. -/
def cDocNeg : InvoiceData :=
  { vendor_name := some "Acme Corp", invoice_id := some "INV-003",
    invoice_date := some "2024-02-01", line_items := [cNegItem] }

/-- The row built from the negative-amount document. -/
def cNegRow : Row := { clean_row (mkRawRow cDocNeg "t0" cNegItem) with source_file := "a.pdf" }

/-- C10 witness: the row built from a document with raw amounts "-1" and
"-5.00" has non-negative numeric fields. -/
theorem c10_witness :
    0 ≤ cNegRow.quantity ∧ 0 ≤ cNegRow.unit_price ∧ 0 ≤ cNegRow.total_price :=
  c10.2.2 cDocNeg "a.pdf" "t0" cNegRow
    (by rw [fileRows_eq_map]
        exact List.mem_map.mpr ⟨cNegItem, by simp [cDocNeg], rfl⟩)

/-- The number of decimal digits needed after the point to write `q`
exactly: the least `k ≤ q.den` with `q * 10 ^ k` integral.  For every value
extract_numeric can return such a `k` exists (see `decExp_den_one`). -/
def decExp (q : ℚ) : ℕ :=
  (((List.range (q.den + 1)).find? (fun k => (q * 10 ^ k).den == 1))).getD q.den

/-- Decimal digit characters of a natural number, most significant first. -/
def natToDigits (n : ℕ) : List Char :=
  if h : n < 10 then [Char.ofNat (48 + n)]
  else natToDigits (n / 10) ++ [Char.ofNat (48 + n % 10)]
termination_by n
decreasing_by exact Nat.div_lt_self (by omega) (by omega)

/-- Left-pad a digit list with '0' up to width `k`. -/
def padLeftZeros (k : ℕ) (ds : List Char) : List Char :=
  List.replicate (k - ds.length) '0' ++ ds

/-- Decimal string rendering of a non-negative finite-decimal rational:
integer digits, and when a fractional part is needed a point followed by
exactly `decExp q` fractional digits.  This is the model of Python's string
rendering of the float. -/
def renderDecimal (q : ℚ) : String :=
  let k := decExp q
  let n := (q * 10 ^ k).num.toNat
  if k = 0 then String.mk (natToDigits n)
  else String.mk (natToDigits (n / 10 ^ k) ++ '.' :: padLeftZeros k (natToDigits (n % 10 ^ k)))

/-- A digit character built from a value below ten has that value at ASCII
offset 48 and satisfies isDigit. -/
theorem digitChar_props (m : ℕ) (hm : m < 10) :
    (Char.ofNat (48 + m)).isDigit = true ∧ (Char.ofNat (48 + m)).toNat = 48 + m := by
  interval_cases m <;> exact ⟨by decide, by decide⟩

/-- natToDigits never returns the empty list. -/
theorem natToDigits_ne_nil (n : ℕ) : natToDigits n ≠ [] := by
  unfold natToDigits
  split <;> simp

/-- Every character of natToDigits is a decimal digit. -/
theorem natToDigits_digits (n : ℕ) : ∀ c ∈ natToDigits n, c.isDigit = true := by
  induction n using Nat.strong_induction_on with
  | _ n ih =>
    unfold natToDigits
    split
    · intro c hc
      rw [List.mem_singleton] at hc
      subst hc
      exact (digitChar_props n (by assumption)).1
    · intro c hc
      rcases List.mem_append.mp hc with hc | hc
      · exact ih (n / 10) (Nat.div_lt_self (by omega) (by omega)) c hc
      · rw [List.mem_singleton] at hc
        subst hc
        exact (digitChar_props (n % 10) (Nat.mod_lt _ (by omega))).1

/-- A digit character is not a point. -/
theorem digit_ne_dot (c : Char) (h : c.isDigit = true) : ¬ c = '.' := by
  intro hc
  subst hc
  exact absurd h (by decide)

/-- A digit character is not a comma. -/
theorem digit_ne_comma (c : Char) (h : c.isDigit = true) : ¬ c = ',' := by
  intro hc
  subst hc
  exact absurd h (by decide)

/-- foldDigits distributes over list append. -/
theorem foldDigits_append (a : ℕ) (l1 l2 : List Char) :
    foldDigits a (l1 ++ l2) = foldDigits (foldDigits a l1) l2 := by
  unfold foldDigits
  rw [List.foldl_append]

/-- Folding the digits of `n` onto an accumulator `a` shifts `a` by the
digit count and adds `n`. -/
theorem foldDigits_natToDigits (n : ℕ) :
    ∀ a : ℕ, foldDigits a (natToDigits n) = a * 10 ^ (natToDigits n).length + n := by
  induction n using Nat.strong_induction_on with
  | _ n ih =>
    intro a
    unfold natToDigits
    split
    · show foldDigits a [Char.ofNat (48 + n)] = a * 10 ^ ([Char.ofNat (48 + n)]).length + n
      unfold foldDigits
      rw [List.foldl_cons, List.foldl_nil, (digitChar_props n (by assumption)).2]
      simp
      omega
    · rw [foldDigits_append,
        ih (n / 10) (Nat.div_lt_self (by omega) (by omega)) a]
      unfold foldDigits
      rw [List.foldl_cons, List.foldl_nil, (digitChar_props (n % 10) (Nat.mod_lt _ (by omega))).2]
      rw [List.length_append, List.length_singleton, pow_succ]
      have hdm : 10 * (n / 10) + n % 10 = n := Nat.div_add_mod n 10
      set L := (natToDigits (n / 10)).length
      have : 10 * (a * 10 ^ L + n / 10) + (48 + n % 10 - 48) =
          a * (10 ^ L * 10) + (10 * (n / 10) + n % 10) := by ring_nf; omega
      rw [this, hdm]

/-- A number below 10^k has at most k decimal digits (k ≥ 1). -/
theorem natToDigits_length_le (n : ℕ) :
    ∀ k : ℕ, 1 ≤ k → n < 10 ^ k → (natToDigits n).length ≤ k := by
  induction n using Nat.strong_induction_on with
  | _ n ih =>
    intro k hk hn
    unfold natToDigits
    split
    · simpa using hk
    · rename_i h10
      have hn10 : 10 ≤ n := by omega
      have hk2 : 2 ≤ k := by
        by_contra hc
        have hkis : k = 1 := by omega
        subst hkis
        rw [pow_one] at hn
        omega
      rw [List.length_append, List.length_singleton]
      have hdiv : n / 10 < 10 ^ (k - 1) := by
        rw [Nat.div_lt_iff_lt_mul (by omega)]
        calc n < 10 ^ k := hn
        _ = 10 ^ (k - 1) * 10 := by
            rw [← pow_succ]
            congr 1
            omega
      have := ih (n / 10) (Nat.div_lt_self (by omega) (by omega)) (k - 1) (by omega) hdiv
      omega

/-- Running the integer parse phase over a block of digit characters folds
them into the accumulator and marks digits as seen. -/
theorem pyIntLoop_digits (ds : List Char) :
    ∀ (rest : List Char) (seen : Bool) (acc : ℕ), (∀ c ∈ ds, c.isDigit = true) →
      pyIntLoop seen acc (ds ++ rest) =
        pyIntLoop (seen || !ds.isEmpty) (foldDigits acc ds) rest := by
  induction ds with
  | nil =>
    intro rest seen acc _
    simp [foldDigits]
  | cons c cs ih =>
    intro rest seen acc h
    have hc : c.isDigit = true := h c (List.mem_cons_self ..)
    rw [List.cons_append]
    show (if c.isDigit = true then pyIntLoop true (10 * acc + (c.toNat - 48)) (cs ++ rest)
          else if c = '.' then pyFracLoop seen acc 0 0 (cs ++ rest) else none) = _
    rw [if_pos hc, ih rest true _ (fun x hx => h x (List.mem_cons_of_mem _ hx))]
    simp [foldDigits]

/-- Running the fractional parse phase over a block of digit characters
folds them into the fraction accumulator and advances the digit count. -/
theorem pyFracLoop_digits (ds : List Char) :
    ∀ (rest : List Char) (seen : Bool) (ip fa fl : ℕ), (∀ c ∈ ds, c.isDigit = true) →
      pyFracLoop seen ip fa fl (ds ++ rest) =
        pyFracLoop (seen || !ds.isEmpty) ip (foldDigits fa ds) (fl + ds.length) rest := by
  induction ds with
  | nil =>
    intro rest seen ip fa fl _
    simp [foldDigits]
  | cons c cs ih =>
    intro rest seen ip fa fl h
    have hc : c.isDigit = true := h c (List.mem_cons_self ..)
    rw [List.cons_append]
    show (if c.isDigit = true then pyFracLoop true ip (10 * fa + (c.toNat - 48)) (fl + 1) (cs ++ rest)
          else none) = _
    rw [if_pos hc, ih rest true _ _ _ (fun x hx => h x (List.mem_cons_of_mem _ hx))]
    have harg : fl + 1 + cs.length = fl + (c :: cs).length := by
      rw [List.length_cons]
      omega
    rw [harg]
    simp [foldDigits]

/-- Folding a block of zero characters multiplies the accumulator by the
corresponding power of ten. -/
theorem foldDigits_replicate_zero (z : ℕ) :
    ∀ a : ℕ, foldDigits a (List.replicate z '0') = a * 10 ^ z := by
  induction z with
  | zero => intro a; simp [foldDigits]
  | succ z ih =>
    intro a
    rw [List.replicate_succ]
    have h0 : foldDigits a ('0' :: List.replicate z '0') =
        foldDigits (10 * a) (List.replicate z '0') := by
      unfold foldDigits
      rw [List.foldl_cons]
      norm_num [toNat_digit0]
    rw [h0, ih]
    ring

/-- The denominator of `q` divides 10^j whenever `q` is a natural number
over 10^j. -/
theorem den_dvd_pow_ten (q : ℚ) (n j : ℕ) (hq : q = (n : ℚ) / 10 ^ j) :
    q.den ∣ 10 ^ j := by
  have h := Rat.den_dvd (n : ℤ) ((10 ^ j : ℕ) : ℤ)
  rw [Rat.divInt_eq_div, Int.cast_natCast, Int.cast_natCast] at h
  have h10 : (((10 ^ j : ℕ) : ℚ)) = ((10 : ℚ) ^ j) := by push_cast; ring
  rw [h10, ← hq] at h
  exact_mod_cast h

/-- A divisor of a power of ten divides the power of ten with exponent
equal to the divisor itself. -/
theorem dvd_pow_ten_self (d j : ℕ) (hpos : 0 < d) (h : d ∣ 10 ^ j) : d ∣ 10 ^ d := by
  have h10 : (10 : ℕ) ^ j = 2 ^ j * 5 ^ j := by
    rw [← mul_pow]
    norm_num
  have h25 : d ∣ 2 ^ j * 5 ^ j := h10 ▸ h
  obtain ⟨d2, d5, h2, h5, hd⟩ := exists_dvd_and_dvd_of_dvd_mul h25
  obtain ⟨a, _, rfl⟩ := (Nat.dvd_prime_pow Nat.prime_two).mp h2
  obtain ⟨b, _, rfl⟩ := (Nat.dvd_prime_pow (by norm_num : Nat.Prime 5)).mp h5
  have ha : a ≤ d := by
    have h2d : 2 ^ a ∣ d := hd ▸ dvd_mul_right _ _
    have := Nat.le_of_dvd hpos h2d
    have := Nat.lt_pow_self (by norm_num : 1 < 2) a
    omega
  have hb : b ≤ d := by
    have h5d : 5 ^ b ∣ d := hd ▸ dvd_mul_left _ _
    have := Nat.le_of_dvd hpos h5d
    have := Nat.lt_pow_self (by norm_num : 1 < 5) b
    omega
  subst hd
  calc 2 ^ a * 5 ^ b ∣ 2 ^ (2 ^ a * 5 ^ b) * 5 ^ (2 ^ a * 5 ^ b) :=
        mul_dvd_mul (pow_dvd_pow 2 ha) (pow_dvd_pow 5 hb)
  _ = 10 ^ (2 ^ a * 5 ^ b) := by rw [← mul_pow]; norm_num

/-- For any value of the form n / 10^j the search in decExp succeeds: the
chosen exponent makes the value integral. -/
theorem decExp_den_one (q : ℚ) (n j : ℕ) (hq : q = (n : ℚ) / 10 ^ j) :
    (q * 10 ^ decExp q).den = 1 := by
  have hdvd : q.den ∣ 10 ^ j := den_dvd_pow_ten q n j hq
  have hdvd10 : q.den ∣ 10 ^ q.den := dvd_pow_ten_self q.den j q.pos hdvd
  have hden1 : (q * 10 ^ q.den).den = 1 := by
    obtain ⟨c, hc⟩ := hdvd10
    have h10 : ((10 : ℚ) ^ q.den) = (q.den : ℚ) * (c : ℚ) := by exact_mod_cast hc
    have hdne : ((q.den : ℕ) : ℚ) ≠ 0 := Nat.cast_ne_zero.mpr q.pos.ne'
    have hqden : q * (q.den : ℚ) = (q.num : ℚ) := by
      nth_rewrite 1 [← Rat.num_div_den q]
      rw [div_mul_cancel₀ _ hdne]
    rw [h10, ← mul_assoc, hqden,
      show (q.num : ℚ) * (c : ℚ) = ((q.num * (c : ℤ) : ℤ) : ℚ) by push_cast; ring]
    exact Rat.den_intCast _
  rcases hf : (List.range (q.den + 1)).find? (fun k => (q * 10 ^ k).den == 1) with _ | k
  · exfalso
    have hnone := List.find?_eq_none.mp hf q.den (List.mem_range.mpr (Nat.lt_succ_self _))
    simp [hden1] at hnone
  · have hk := List.find?_some hf
    have hde : decExp q = k := by
      unfold decExp
      rw [hf]
      rfl
    rw [hde]
    simpa using hk

/-- On a nonempty string of digits and points, _extract_numeric is the bare
float parse wrapped in the zero fallback: both stripping passes keep every
character. -/
theorem extract_numeric_clean (ds : List Char)
    (hd : ∀ c ∈ ds, c.isDigit = true ∨ c = '.') (hne : ds ≠ []) :
    extract_numeric (String.mk ds) =
      (match pyFloat? (String.mk ds) with | some q => q | none => (0 : ℚ)) := by
  have h1 : ds.filter (fun c => c.isDigit || c == '.' || c == ',') = ds := by
    rw [List.filter_eq_self]
    intro a ha
    rcases hd a ha with h | h
    · simp [h]
    · simp [h]
  have h2 : ds.filter (fun c => c != ',') = ds := by
    rw [List.filter_eq_self]
    intro a ha
    rcases hd a ha with h | h
    · simpa using digit_ne_comma a h
    · subst h
      decide
  have hmk : ¬ (String.mk ds = "") := by
    intro hc
    exact hne (congrArg String.data hc)
  unfold extract_numeric
  rw [if_neg hmk]
  show (match pyFloat? (String.mk ((ds.filter
      (fun c => c.isDigit || c == '.' || c == ',')).filter (fun c => c != ','))) with
    | some q => q
    | none => (0 : ℚ)) = _
  rw [h1, h2]

/-- Parsing the rendered digits of a natural number returns that number. -/
theorem pyFloat_digits (m : ℕ) : pyFloat? (String.mk (natToDigits m)) = some (m : ℚ) := by
  show pyIntLoop false 0 (natToDigits m) = some (m : ℚ)
  have h := pyIntLoop_digits (natToDigits m) [] false 0 (natToDigits_digits m)
  rw [List.append_nil] at h
  rw [h]
  have hne : (natToDigits m).isEmpty = false := by
    rw [Bool.eq_false_iff]
    intro hb
    exact natToDigits_ne_nil m (List.isEmpty_iff.mp hb)
  rw [hne]
  have hfold : foldDigits 0 (natToDigits m) = m := by
    rw [foldDigits_natToDigits]
    simp
  rw [hfold]
  rfl

/-- Parsing integer digits, a point and a k-wide zero-padded fraction block
returns the integer part plus the fraction over 10^k. -/
theorem pyFloat_digits_frac (ip fr k : ℕ) (hk : 1 ≤ k) (hfr : fr < 10 ^ k) :
    pyFloat? (String.mk (natToDigits ip ++ '.' :: padLeftZeros k (natToDigits fr))) =
      some ((ip : ℚ) + (fr : ℚ) / 10 ^ k) := by
  show pyIntLoop false 0 (natToDigits ip ++ '.' :: padLeftZeros k (natToDigits fr)) = _
  rw [pyIntLoop_digits _ _ _ _ (natToDigits_digits ip)]
  have hne : (natToDigits ip).isEmpty = false := by
    rw [Bool.eq_false_iff]
    intro hb
    exact natToDigits_ne_nil ip (List.isEmpty_iff.mp hb)
  rw [hne]
  have hfold : foldDigits 0 (natToDigits ip) = ip := by
    rw [foldDigits_natToDigits]
    simp
  rw [hfold]
  show pyFracLoop true ip 0 0 (padLeftZeros k (natToDigits fr)) = _
  have hdig : ∀ c ∈ padLeftZeros k (natToDigits fr), c.isDigit = true := by
    intro c hc
    unfold padLeftZeros at hc
    rcases List.mem_append.mp hc with hc | hc
    · rw [List.eq_of_mem_replicate hc]
      decide
    · exact natToDigits_digits fr c hc
  have h := pyFracLoop_digits (padLeftZeros k (natToDigits fr)) [] true ip 0 0 hdig
  rw [List.append_nil] at h
  rw [h]
  have hlen : (padLeftZeros k (natToDigits fr)).length = k := by
    unfold padLeftZeros
    rw [List.length_append, List.length_replicate]
    have := natToDigits_length_le fr k hk hfr
    omega
  have hfoldp : foldDigits 0 (padLeftZeros k (natToDigits fr)) = fr := by
    unfold padLeftZeros
    rw [foldDigits_append, foldDigits_replicate_zero, zero_mul, foldDigits_natToDigits]
    simp
  rw [hfoldp, hlen]
  show some ((ip : ℚ) + (fr : ℚ) / 10 ^ (0 + k)) = some ((ip : ℚ) + (fr : ℚ) / 10 ^ k)
  rw [Nat.zero_add]

/-- Rendering a non-negative finite-decimal rational and parsing the result
back through _extract_numeric returns the same value. -/
theorem render_roundtrip (q : ℚ) (hq0 : 0 ≤ q)
    (hden1 : (q * 10 ^ decExp q).den = 1) :
    extract_numeric (renderDecimal q) = q := by
  have hqk_nonneg : 0 ≤ q * 10 ^ decExp q := mul_nonneg hq0 (by positivity)
  have hqk : q * 10 ^ decExp q = (((q * 10 ^ decExp q).num.toNat : ℕ) : ℚ) := by
    nth_rewrite 1 [← Rat.num_div_den (q * 10 ^ decExp q)]
    rw [hden1, Nat.cast_one, div_one]
    exact_mod_cast (Int.toNat_of_nonneg (Rat.num_nonneg.mpr hqk_nonneg)).symm
  unfold renderDecimal
  show extract_numeric (if decExp q = 0 then String.mk (natToDigits ((q * 10 ^ decExp q).num.toNat))
    else String.mk (natToDigits ((q * 10 ^ decExp q).num.toNat / 10 ^ decExp q) ++ '.' ::
      padLeftZeros (decExp q) (natToDigits ((q * 10 ^ decExp q).num.toNat % 10 ^ decExp q)))) = q
  generalize hkq : decExp q = k at hqk ⊢
  generalize hNg : (q * 10 ^ k).num.toNat = N at hqk ⊢
  have hpne : ((10 : ℚ) ^ k) ≠ 0 := by positivity
  have hqN : q = (N : ℚ) / 10 ^ k := by
    rw [← hqk]
    field_simp
  rcases Nat.eq_zero_or_pos k with hk0 | hkpos
  · subst hk0
    rw [if_pos rfl]
    rw [extract_numeric_clean _ (fun c hc => Or.inl (natToDigits_digits N c hc))
      (natToDigits_ne_nil N)]
    rw [pyFloat_digits N]
    show (N : ℚ) = q
    rw [hqN]
    norm_num
  · have hk1 : 1 ≤ k := hkpos
    rw [if_neg (by omega)]
    have hmod : N % 10 ^ k < 10 ^ k := Nat.mod_lt _ (by positivity)
    have hd : ∀ c ∈ natToDigits (N / 10 ^ k) ++ '.' :: padLeftZeros k (natToDigits (N % 10 ^ k)),
        c.isDigit = true ∨ c = '.' := by
      intro c hc
      rcases List.mem_append.mp hc with hc | hc
      · exact Or.inl (natToDigits_digits _ c hc)
      · rcases List.mem_cons.mp hc with rfl | hc
        · exact Or.inr rfl
        · unfold padLeftZeros at hc
          rcases List.mem_append.mp hc with hc | hc
          · refine Or.inl ?_
            rw [List.eq_of_mem_replicate hc]
            decide
          · exact Or.inl (natToDigits_digits _ c hc)
    have hne2 : natToDigits (N / 10 ^ k) ++ '.' :: padLeftZeros k (natToDigits (N % 10 ^ k)) ≠ [] := by
      intro hc
      exact natToDigits_ne_nil _ (List.append_eq_nil.mp hc).1
    rw [extract_numeric_clean _ hd hne2]
    rw [pyFloat_digits_frac (N / 10 ^ k) (N % 10 ^ k) k hk1 hmod]
    show ((N / 10 ^ k : ℕ) : ℚ) + ((N % 10 ^ k : ℕ) : ℚ) / 10 ^ k = q
    rw [hqN]
    have hdm : (10 : ℚ) ^ k * ((N / 10 ^ k : ℕ) : ℚ) + ((N % 10 ^ k : ℕ) : ℚ) = (N : ℚ) := by
      exact_mod_cast congrArg (fun x : ℕ => (x : ℚ)) (Nat.div_add_mod N (10 ^ k))
    field_simp
    linarith

/-- C8: normalizing the decimal rendering of an already-normalized value
yields the same value, for every input string; e.g. "20.00" normalizes to
20.0 and renormalizing the rendering of that value gives 20.0 again. -/
theorem c8 :
    (∀ s : String, extract_numeric (renderDecimal (extract_numeric s)) = extract_numeric s) ∧
    extract_numeric "20.00" = 20 ∧
    extract_numeric (renderDecimal (extract_numeric "20.00")) = 20 := by
  have main : ∀ s : String,
      extract_numeric (renderDecimal (extract_numeric s)) = extract_numeric s := by
    intro s
    obtain ⟨n0, j, hq⟩ := extract_numeric_decimal s
    have hq0 : 0 ≤ extract_numeric s := by
      rw [hq]
      positivity
    exact render_roundtrip _ hq0 (decExp_den_one _ n0 j hq)
  have h2000 : extract_numeric "20.00" = 20 := by
    simp +decide only [extract_numeric, pyFloat?, pyIntLoop, pyFracLoop]
    norm_num [toNat_digit2, toNat_digit0]
  exact ⟨main, h2000, by rw [main "20.00", h2000]⟩

/-- The concrete record used to witness `c4`: vendor "Acme Corp", invoice id
"INV-001", three line items. -/
def cAcme : InvoiceData :=
  { vendor_name := some "Acme Corp", invoice_id := some "INV-001",
    invoice_date := some "2024-01-15",
    line_items :=
      [{ description := "Widget", quantity := "1", unit_price := "10.00", total_price := "10.00" },
       { description := "Gadget", quantity := "2", unit_price := "10.00", total_price := "20.00" },
       { description := "Gizmo", quantity := "3", unit_price := "10.00", total_price := "30.00" }] }

/-- The first line item of the Acme record. -/
def cAcmeItem : LineItem :=
  { description := "Widget", quantity := "1", unit_price := "10.00", total_price := "10.00" }

/-- The first row built from the Acme record. -/
def cAcmeRow : Row :=
  { clean_row (mkRawRow cAcme "t0" cAcmeItem) with source_file := "a.pdf" }

/-- C4 witness: building the three-line-item Acme record yields exactly 3
rows and the first row carries the broadcast vendor name, invoice id,
invoice date, source file and timestamp. -/
theorem c4_witness :
    (fileRows cAcme "a.pdf" "t0").length = 3 ∧
    cAcmeRow.vendor_name = clean_text (cAcme.vendor_name.getD "") ∧
    cAcmeRow.invoice_id = cAcme.invoice_id.getD "" ∧
    cAcmeRow.invoice_date = parse_date (cAcme.invoice_date.getD "") ∧
    cAcmeRow.source_file = "a.pdf" ∧
    cAcmeRow.processed_timestamp = "t0" := by
  have h := c4 cAcme "a.pdf" "t0"
  have hmem : cAcmeRow ∈ fileRows cAcme "a.pdf" "t0" := by
    rw [fileRows_eq_map]
    exact List.mem_map.mpr ⟨cAcmeItem, by simp [cAcme, cAcmeItem], rfl⟩
  have hlen : (fileRows cAcme "a.pdf" "t0").length = 3 := by
    rw [h.1, List.length_map]
    rfl
  exact ⟨hlen, h.2.2 cAcmeRow hmem⟩
